import Mathlib

/-!
Shallow embedding of the EEG seizure-detection pipeline in
`src/ahthomas/src/eeg_analysis.ipynb`.

The notebook slides a fixed-size window over each recording
(`for ix in range(window_size, num_obs, stride)`), slices
`X[ix-window_size:ix, :]`, extracts spectral band relative powers
(`compute_band_relpower`), aggregates labels with
`np.any(y[ix-window_size:ix])`, splits by subject id, and standardizes
features with `StandardScaler` fit on the training rows.

Machine reals are modelled as `ℚ` (the notebook's float arithmetic has no
overflow- or rounding-sensitive logic in the properties below); Python
`range` and slicing are modelled exactly; `scipy.signal.welch` is an
external library collaborator, so `compute_band_relpower` is embedded
from the point where the PSD vector enters the arithmetic of the source
function (fs = 256.0, default nperseg = 256, hence 129 frequency points
at 1 Hz resolution, as produced for the notebook's 1024-sample windows).
-/

namespace EEGA

/-- Python `range(a, b, s)` for a positive step `s`: the list
`a, a + s, a + 2 s, ...` of all such values strictly less than `b`. -/
def pyRange (a b s : ℕ) : List ℕ :=
  List.range' a ((b - a + s - 1) / s) s

/-- Python slice `X[a:b]` (for `0 ≤ a ≤ b`): elements at indices
`a, ..., b-1`, clamped to the length of the list. -/
def pySlice {α : Type} (X : List α) (a b : ℕ) : List α :=
  (X.take b).drop a

/-- Start indices of the windowing loop
`for ix in range(window_size, num_obs, stride)` in the notebook. -/
def windowStarts (window_size num_obs stride : ℕ) : List ℕ :=
  pyRange window_size num_obs stride

/-- Number of windows the loop actually produces:
`0` when `num_obs ≤ window_size`, else `(num_obs - window_size - 1)/stride + 1`
(the number of multiples of `stride` reachable from `window_size` strictly
below `num_obs`). -/
def windowCount (window_size num_obs stride : ℕ) : ℕ :=
  if num_obs ≤ window_size then 0 else (num_obs - window_size - 1) / stride + 1

/-- Errors Python itself can raise in the windowing loop: `range` with a
zero step raises `ValueError`.  The notebook contains no parameter
validation of its own. -/
inductive PyErr where
  | valueError : PyErr
deriving DecidableEq, Repr

/-- The windowing loop's sequence of start indices as actually executed:
`range(window_size, num_obs, stride)` raises `ValueError` when
`stride = 0` and otherwise yields its arithmetic progression; no other
check is performed by the source. -/
def windowerRun (window_size num_obs stride : ℕ) : Except PyErr (List ℕ) :=
  if stride = 0 then .error .valueError
  else .ok (pyRange window_size num_obs stride)

/-- `np.any(y[ix-window_size:ix])` from the windowing loop: true iff some
element of the slice is nonzero. -/
def windowLabel (y : List ℚ) (window_size ix : ℕ) : Bool :=
  (pySlice y (ix - window_size) ix).any (fun v => decide (v ≠ 0))

/-- `features.append(...)` over the loop: one feature vector per start
index, computed from the window slice `X[ix-window_size:ix, :]`.  The
notebook leaves `feature_vector = ???` (a TODO placeholder), so the
per-window feature map `φ` is abstract here; one entry is appended per
iteration regardless. -/
def featuresList {F : Type} (φ : List (List ℚ) → F) (X : List (List ℚ))
    (window_size num_obs stride : ℕ) : List F :=
  (windowStarts window_size num_obs stride).map
    (fun ix => φ (pySlice X (ix - window_size) ix))

/-- `labels.append(np.any(y[ix-window_size:ix]))` over the loop. -/
def labelsList (y : List ℚ) (window_size num_obs stride : ℕ) : List Bool :=
  (windowStarts window_size num_obs stride).map (windowLabel y window_size)

/-- `subjects.append(subject_id)` over the loop. -/
def subjectsList (sid : String) (window_size num_obs stride : ℕ) : List String :=
  (windowStarts window_size num_obs stride).map (fun _ => sid)

/-! ### Leave-one-subject-out split

`is_test_set = (subjects == "chb01")`, `X_train = X[~is_test_set]`,
`X_test = X[is_test_set]` (the test extraction is a TODO placeholder in
the notebook; the train mask and its negation are in the source, and the
spec fixes the test side as the rows where `subject == test_subject_id`).
The dataset is the list of rows tagged with their subject ids; the split
is two boolean-mask selections, which preserve row order. -/

/-- Row-order-preserving split of the dataset by the held-out subject id:
train rows (subject different from `tid`) and test rows (subject equal to
`tid`). -/
def splitDataset (rows : List (String × List ℚ)) (tid : String) :
    List (String × List ℚ) × List (String × List ℚ) :=
  (rows.filter (fun r => !(r.1 == tid)), rows.filter (fun r => r.1 == tid))

/-- Error type the spec postulates for the splitter.  The source raises
nothing here: the split is pure numpy mask selection. -/
inductive SplitError where
  | unknownSubject : SplitError
deriving DecidableEq, Repr

/-- The split as executed: the source performs no check on the held-out
subject id, so the run always returns the two partitions. -/
def splitRun (rows : List (String × List ℚ)) (tid : String) :
    Except SplitError (List (String × List ℚ) × List (String × List ℚ)) :=
  .ok (splitDataset rows tid)

/-! ### StandardScaler

`S = StandardScaler(); X_train = S.fit_transform(X_train);
X_test = S.transform(X_test)`.  `fit` stores per-column mean and scale
(the library computes scale as the square root of the per-column
population variance, substituting 1 for zero variances); the square-root
step is the external numeric routine `sq` below.  `transform` applies the
stored statistics. -/

/-- Population mean of a list (as numpy's `mean`). -/
def meanQ (l : List ℚ) : ℚ := l.sum / l.length

/-- Population variance of a list (as numpy's `var`, `ddof = 0`). -/
def varQ (l : List ℚ) : ℚ :=
  ((l.map (fun x => (x - meanQ l) ^ 2)).sum) / l.length

/-- Column `j` of a row-major matrix. -/
def colQ (X : List (List ℚ)) (j : ℕ) : List ℚ :=
  X.map (fun r => r.getD j 0)

/-- Fitted per-column statistics of a `StandardScaler`. -/
structure ScalerStats where
  mean : ℕ → ℚ
  scale : ℕ → ℚ

/-- `StandardScaler.fit`: per-column mean, and scale derived from the
per-column population variance by the library's square-root-with-zero
-guard routine `sq`. -/
def fitStats (sq : ℚ → ℚ) (X : List (List ℚ)) : ScalerStats :=
  { mean := fun j => meanQ (colQ X j)
    scale := fun j => sq (varQ (colQ X j)) }

/-- Transform one row with fitted statistics: `(x - mean) / scale`
columnwise. -/
def transformRow (st : ScalerStats) (row : List ℚ) : List ℚ :=
  (List.range row.length).map (fun j => (row.getD j 0 - st.mean j) / st.scale j)

/-- A `StandardScaler` object: its mutable state is the optional fitted
statistics (`none` before any fit). -/
structure Scaler where
  stats : Option ScalerStats

/-- `S.fit(X)`: (re)fit the scaler state from `X`. -/
def Scaler.fit (_ : Scaler) (sq : ℚ → ℚ) (X : List (List ℚ)) : Scaler :=
  ⟨some (fitStats sq X)⟩

/-- `S.fit_transform(X)`: fit from `X`, then transform `X` with the
fitted statistics; returns the updated object state and the result. -/
def Scaler.fitTransform (S : Scaler) (sq : ℚ → ℚ) (X : List (List ℚ)) :
    Scaler × List (List ℚ) :=
  (S.fit sq X, X.map (transformRow (fitStats sq X)))

/-- `S.transform(X)`: transform with the stored statistics; `none` models
the library's `NotFittedError` when no fit has happened. -/
def Scaler.transform (S : Scaler) (X : List (List ℚ)) :
    Option (List (List ℚ)) :=
  S.stats.map (fun st => X.map (transformRow st))

/-- The notebook's standardization stage:
`S = StandardScaler()`, `X_train = S.fit_transform(X_train)`,
`X_test = S.transform(X_test)`. -/
def standardizePipeline (sq : ℚ → ℚ) (Xtr Xte : List (List ℚ)) :
    (Scaler × List (List ℚ)) × Option (List (List ℚ)) :=
  let S : Scaler := ⟨none⟩
  let p := S.fitTransform sq Xtr
  (p, p.1.transform Xte)


/-! ### compute_band_relpower

`freqs, psd = signal.welch(X, fs=256.0, axis=0)` is the external spectral
estimator (fs = 256.0, default nperseg = 256, so `freqs = 0, 1, ..., 128`
Hz and `fr_res = 1.0` for the notebook's 1024-sample windows); the
embedding takes the returned PSD vector `psd : ℕ → ℚ` as the function's
input and models the arithmetic of the source from that point on: band
selection `where(lb, ub)`, `integrate.simps` (composite Simpson with
scipy's `even='avg'` average rule on an even number of samples), the
zero-total-power guard, and the final division. -/

/-- Composite Simpson rule with unit spacing over an odd number of
samples (scipy's basic Simpson pass over the whole array): consecutive
sample triples contribute `(y0 + 4 y1 + y2)/3`. -/
def simpsCore : List ℚ → ℚ
  | a :: b :: c :: rest => (a + 4 * b + c) / 3 + simpsCore (c :: rest)
  | _ => 0

/-- `integrate.simps(ys, dx=1)` with the default `even='avg'` handling:
composite Simpson when the sample count is odd; for an even count, the
average of (Simpson on all but the last sample plus a trapezoid on the
last interval) and (a trapezoid on the first interval plus Simpson on
all but the first sample). -/
def scipySimps (ys : List ℚ) : ℚ :=
  if ys.length % 2 = 1 then simpsCore ys
  else ((simpsCore ys.dropLast
          + (ys.getD (ys.length - 2) 0 + ys.getD (ys.length - 1) 0) / 2)
        + ((ys.getD 0 0 + ys.getD 1 0) / 2 + simpsCore ys.tail)) / 2

/-- `bands = [(0.5,4), (4,8), (8,13), (13,32), (32,60)]`. -/
def eegBands : List (ℚ × ℚ) := [(1/2, 4), (4, 8), (8, 13), (13, 32), (32, 60)]

/-- `where = lambda lb, ub: np.logical_and(freqs >= lb, freqs < ub)` on
the frequency grid `0, 1, ..., 128` Hz. -/
def bandIdx (lb ub : ℚ) : List ℕ :=
  (List.range 129).filter (fun i => decide (lb ≤ (i : ℚ)) && decide ((i : ℚ) < ub))

/-- `total_power = integrate.simps(psd, dx=fr_res, axis=0)`. -/
def totalPower (psd : ℕ → ℚ) : ℚ := scipySimps ((List.range 129).map psd)

/-- `abs_power`: one Simpson-integrated band power per band, in band
order. -/
def bandAbsPowers (psd : ℕ → ℚ) : List ℚ :=
  eegBands.map (fun b => scipySimps ((bandIdx b.1 b.2).map psd))

/-- `compute_band_relpower` for one channel from the PSD on: the guard
`abs_power[:, total_power == 0] = 0; total_power[total_power == 0] = -1`
followed by `band_relpower = abs_power / total_power`. -/
def compute_band_relpower (psd : ℕ → ℚ) : List ℚ :=
  (if totalPower psd = 0 then (bandAbsPowers psd).map (fun _ => 0)
   else bandAbsPowers psd).map
    (fun a => a / (if totalPower psd = 0 then -1 else totalPower psd))

/-- Dot product of two rational lists, used to restate the Simpson
quadratures as explicit weighted sums of the PSD samples. -/
def dot (cs xs : List ℚ) : ℚ := (List.zipWith (fun c x => c * x) cs xs).sum

/-- Twelve times the Simpson weights of `totalPower` on the grid
`0, ..., 128`. -/
def totalW12 : List ℚ :=
  [4, 16, 8, 16, 8, 16, 8, 16, 8, 16, 8, 16, 8, 16, 8, 16, 8, 16, 8, 16, 8, 16, 8, 16, 8, 16, 8, 16, 8, 16, 8, 16, 8, 16, 8, 16, 8, 16, 8, 16, 8, 16, 8, 16, 8, 16, 8, 16, 8, 16, 8, 16, 8, 16, 8, 16, 8, 16, 8, 16, 8, 16, 8, 16, 8, 16, 8, 16, 8, 16, 8, 16, 8, 16, 8, 16, 8, 16, 8, 16, 8, 16, 8, 16, 8, 16, 8, 16, 8, 16, 8, 16, 8, 16, 8, 16, 8, 16, 8, 16, 8, 16, 8, 16, 8, 16, 8, 16, 8, 16, 8, 16, 8, 16, 8, 16, 8, 16, 8, 16, 8, 16, 8, 16, 8, 16, 8, 16, 4]

/-- Twelve times the combined per-frequency weights of the five band
integrals (zero outside the bands). -/
def bandW12 : List ℚ :=
  [0, 4, 16, 4, 5, 13, 13, 5, 4, 16, 8, 16, 4, 4, 16, 8, 16, 8, 16, 8, 16, 8, 16, 8, 16, 8, 16, 8, 16, 8, 16, 4, 5, 13, 12, 12, 12, 12, 12, 12, 12, 12, 12, 12, 12, 12, 12, 12, 12, 12, 12, 12, 12, 12, 12, 12, 12, 12, 13, 5, 0, 0, 0, 0, 0, 0, 0, 0, 0, 0, 0, 0, 0, 0, 0, 0, 0, 0, 0, 0, 0, 0, 0, 0, 0, 0, 0, 0, 0, 0, 0, 0, 0, 0, 0, 0, 0, 0, 0, 0, 0, 0, 0, 0, 0, 0, 0, 0, 0, 0, 0, 0, 0, 0, 0, 0, 0, 0, 0, 0, 0, 0, 0, 0, 0, 0, 0, 0, 0]

/-- Twice the total weights minus the band weights (twelve-fold):
entrywise nonnegative, which bounds the band power sum by twice the
total power. -/
def diffW12 : List ℚ :=
  [8, 28, 0, 28, 11, 19, 3, 27, 12, 16, 8, 16, 12, 28, 0, 24, 0, 24, 0, 24, 0, 24, 0, 24, 0, 24, 0, 24, 0, 24, 0, 28, 11, 19, 4, 20, 4, 20, 4, 20, 4, 20, 4, 20, 4, 20, 4, 20, 4, 20, 4, 20, 4, 20, 4, 20, 4, 20, 3, 27, 16, 32, 16, 32, 16, 32, 16, 32, 16, 32, 16, 32, 16, 32, 16, 32, 16, 32, 16, 32, 16, 32, 16, 32, 16, 32, 16, 32, 16, 32, 16, 32, 16, 32, 16, 32, 16, 32, 16, 32, 16, 32, 16, 32, 16, 32, 16, 32, 16, 32, 16, 32, 16, 32, 16, 32, 16, 32, 16, 32, 16, 32, 16, 32, 16, 32, 16, 32, 8]

/-- The identically-zero PSD. -/
def psdZero : ℕ → ℚ := fun _ => 0

/-- The identically-one PSD. -/
def psdOne : ℕ → ℚ := fun _ => 1

/-- A PSD concentrated on the 2 Hz sample (inside the 0.5-4 Hz band). -/
def psdDelta2 : ℕ → ℚ := fun i => if i = 2 then 1 else 0

/-! ### Basic windowing lemmas -/

lemma pyRange_length (a b s : ℕ) :
    (pyRange a b s).length = (b - a + s - 1) / s := by
  simp [pyRange]

lemma range'_eq_map (a n s : ℕ) :
    List.range' a n s = (List.range n).map (fun k => a + s * k) := by
  induction n generalizing a with
  | zero => simp
  | succ n ih =>
    rw [List.range'_succ, List.range_succ_eq_map]
    simp only [List.map_cons, List.map_map, Nat.mul_zero, Nat.add_zero]
    refine congrArg (a :: ·) ?_
    rw [ih]
    refine List.map_congr_left ?_
    intro k _
    simp [Function.comp, Nat.mul_succ, Nat.mul_add]
    ring

lemma count_eq (w n s : ℕ) (hs : 0 < s) :
    (n - w + s - 1) / s = windowCount w n s := by
  unfold windowCount
  by_cases h : n ≤ w
  · rw [if_pos h]
    have h0 : n - w = 0 := Nat.sub_eq_zero_of_le h
    rw [h0]
    exact Nat.div_eq_of_lt (by omega)
  · rw [if_neg h]
    have h1 : n - w + s - 1 = (n - w - 1) + s := by omega
    rw [h1, Nat.add_div_right _ hs]

lemma windowStarts_length (w n s : ℕ) (hs : 0 < s) :
    (windowStarts w n s).length = windowCount w n s := by
  rw [windowStarts, pyRange_length, count_eq w n s hs]

lemma lt_windowCount_iff (w n s k : ℕ) (hs : 0 < s) :
    k < windowCount w n s ↔ w + s * k < n := by
  rw [← count_eq w n s hs]
  have h1 : k + 1 ≤ (n - w + s - 1) / s ↔ (k + 1) * s ≤ n - w + s - 1 :=
    Nat.le_div_iff_mul_le hs
  have h2 : (k + 1) * s = s * k + s := by ring
  rw [h2] at h1
  generalize hD : (n - w + s - 1) / s = D at h1
  generalize hA : s * k = A at h1 ⊢
  omega

lemma windowStarts_eq_map (w n s : ℕ) (hs : 0 < s) :
    windowStarts w n s =
      (List.range (windowCount w n s)).map (fun k => w + s * k) := by
  rw [windowStarts, pyRange, range'_eq_map, count_eq w n s hs]

lemma mem_windowStarts (w n s ix : ℕ) (hs : 0 < s) :
    ix ∈ windowStarts w n s ↔ ∃ k, ix = w + s * k ∧ ix < n := by
  rw [windowStarts_eq_map w n s hs]
  simp only [List.mem_map, List.mem_range]
  constructor
  · rintro ⟨k, hk, rfl⟩
    exact ⟨k, rfl, (lt_windowCount_iff w n s k hs).mp hk⟩
  · rintro ⟨k, rfl, hlt⟩
    exact ⟨k, (lt_windowCount_iff w n s k hs).mpr hlt, rfl⟩

lemma pySlice_length {α : Type} (X : List α) (a b : ℕ)
    (hb : b ≤ X.length) (hab : a ≤ b) :
    (pySlice X a b).length = b - a := by
  simp [pySlice, List.length_drop, List.length_take]
  omega

lemma pySlice_subset {α : Type} (X : List α) (a b : ℕ) :
    ∀ v ∈ pySlice X a b, v ∈ X := by
  intro v hv
  exact List.mem_of_mem_take (List.mem_of_mem_drop hv)

/-! ### Spectral helper lemmas -/

lemma range129_lit : List.range 129 = [0, 1, 2, 3, 4, 5, 6, 7, 8, 9, 10, 11, 12, 13, 14, 15, 16, 17, 18, 19, 20, 21, 22, 23, 24, 25, 26, 27, 28, 29, 30, 31, 32, 33, 34, 35, 36, 37, 38, 39, 40, 41, 42, 43, 44, 45, 46, 47, 48, 49, 50, 51, 52, 53, 54, 55, 56, 57, 58, 59, 60, 61, 62, 63, 64, 65, 66, 67, 68, 69, 70, 71, 72, 73, 74, 75, 76, 77, 78, 79, 80, 81, 82, 83, 84, 85, 86, 87, 88, 89, 90, 91, 92, 93, 94, 95, 96, 97, 98, 99, 100, 101, 102, 103, 104, 105, 106, 107, 108, 109, 110, 111, 112, 113, 114, 115, 116, 117, 118, 119, 120, 121, 122, 123, 124, 125, 126, 127, 128] := by decide

lemma scipySimps_odd (ys : List ℚ) (h : ys.length % 2 = 1) :
    scipySimps ys = simpsCore ys := by
  rw [scipySimps, if_pos h]

lemma bandIdx_b1 : bandIdx (1/2) 4 = [1, 2, 3] := by
  rw [bandIdx, range129_lit]
  norm_num [List.filter_cons, List.filter_nil]

lemma bandIdx_b2 : bandIdx 4 8 = [4, 5, 6, 7] := by
  rw [bandIdx, range129_lit]
  norm_num [List.filter_cons, List.filter_nil]

lemma bandIdx_b3 : bandIdx 8 13 = [8, 9, 10, 11, 12] := by
  rw [bandIdx, range129_lit]
  norm_num [List.filter_cons, List.filter_nil]

lemma bandIdx_b4 : bandIdx 13 32 = [13, 14, 15, 16, 17, 18, 19, 20, 21, 22, 23, 24, 25, 26, 27, 28, 29, 30, 31] := by
  rw [bandIdx, range129_lit]
  norm_num [List.filter_cons, List.filter_nil]

lemma bandIdx_b5 : bandIdx 32 60 = [32, 33, 34, 35, 36, 37, 38, 39, 40, 41, 42, 43, 44, 45, 46, 47, 48, 49, 50, 51, 52, 53, 54, 55, 56, 57, 58, 59] := by
  rw [bandIdx, range129_lit]
  norm_num [List.filter_cons, List.filter_nil]

lemma band1_eval (p : ℕ → ℚ) :
    12 * scipySimps [p 1, p 2, p 3] = 4 * p 1 + 16 * p 2 + 4 * p 3 := by
  simp [scipySimps, simpsCore]
  ring

lemma band2_eval (p : ℕ → ℚ) :
    12 * scipySimps [p 4, p 5, p 6, p 7] = 5 * p 4 + 13 * p 5 + 13 * p 6 + 5 * p 7 := by
  simp [scipySimps, simpsCore]
  ring

lemma band3_eval (p : ℕ → ℚ) :
    12 * scipySimps [p 8, p 9, p 10, p 11, p 12] = 4 * p 8 + 16 * p 9 + 8 * p 10 + 16 * p 11 + 4 * p 12 := by
  simp [scipySimps, simpsCore]
  ring

set_option maxHeartbeats 1000000 in
lemma band4_eval (p : ℕ → ℚ) :
    12 * scipySimps [p 13, p 14, p 15, p 16, p 17, p 18, p 19, p 20, p 21, p 22, p 23, p 24, p 25, p 26, p 27, p 28, p 29, p 30, p 31] = 4 * p 13 + 16 * p 14 + 8 * p 15 + 16 * p 16 + 8 * p 17 + 16 * p 18 + 8 * p 19 + 16 * p 20 + 8 * p 21 + 16 * p 22 + 8 * p 23 + 16 * p 24 + 8 * p 25 + 16 * p 26 + 8 * p 27 + 16 * p 28 + 8 * p 29 + 16 * p 30 + 4 * p 31 := by
  simp [scipySimps, simpsCore]
  ring

set_option maxHeartbeats 1000000 in
lemma band5_eval (p : ℕ → ℚ) :
    12 * scipySimps [p 32, p 33, p 34, p 35, p 36, p 37, p 38, p 39, p 40, p 41, p 42, p 43, p 44, p 45, p 46, p 47, p 48, p 49, p 50, p 51, p 52, p 53, p 54, p 55, p 56, p 57, p 58, p 59] = 5 * p 32 + 13 * p 33 + 12 * p 34 + 12 * p 35 + 12 * p 36 + 12 * p 37 + 12 * p 38 + 12 * p 39 + 12 * p 40 + 12 * p 41 + 12 * p 42 + 12 * p 43 + 12 * p 44 + 12 * p 45 + 12 * p 46 + 12 * p 47 + 12 * p 48 + 12 * p 49 + 12 * p 50 + 12 * p 51 + 12 * p 52 + 12 * p 53 + 12 * p 54 + 12 * p 55 + 12 * p 56 + 12 * p 57 + 13 * p 58 + 5 * p 59 := by
  simp [scipySimps, simpsCore]
  ring

set_option maxHeartbeats 4000000 in
lemma totalPower_eq_dot (p : ℕ → ℚ) :
    12 * totalPower p = dot totalW12 ((List.range 129).map p) := by
  rw [totalPower, range129_lit]
  simp only [List.map_cons, List.map_nil]
  simp only [scipySimps_odd, List.length_cons, List.length_nil]
  simp only [simpsCore, dot, totalW12, List.zipWith_cons_cons,
    List.zipWith_nil_left, List.zipWith_nil_right, List.sum_cons, List.sum_nil]
  ring

set_option maxHeartbeats 4000000 in
lemma bandAbs_eq_dot (p : ℕ → ℚ) :
    12 * (bandAbsPowers p).sum = dot bandW12 ((List.range 129).map p) := by
  rw [bandAbsPowers]
  simp only [eegBands, List.map_cons, List.map_nil, List.sum_cons, List.sum_nil]
  rw [bandIdx_b1, bandIdx_b2, bandIdx_b3, bandIdx_b4, bandIdx_b5, range129_lit]
  simp only [List.map_cons, List.map_nil, dot, bandW12, List.zipWith_cons_cons,
    List.zipWith_nil_left, List.zipWith_nil_right, List.sum_cons, List.sum_nil]
  linear_combination band1_eval p + band2_eval p + band3_eval p
    + band4_eval p + band5_eval p

set_option maxHeartbeats 4000000 in
lemma dot_split (p : ℕ → ℚ) :
    2 * dot totalW12 ((List.range 129).map p)
      = dot bandW12 ((List.range 129).map p)
        + dot diffW12 ((List.range 129).map p) := by
  rw [range129_lit]
  simp only [List.map_cons, List.map_nil, dot, totalW12, bandW12, diffW12,
    List.zipWith_cons_cons, List.zipWith_nil_left, List.zipWith_nil_right,
    List.sum_cons, List.sum_nil]
  ring

lemma dot_nonneg (cs xs : List ℚ) (hc : ∀ c ∈ cs, 0 ≤ c)
    (hx : ∀ x ∈ xs, 0 ≤ x) : 0 ≤ dot cs xs := by
  induction cs generalizing xs with
  | nil => simp [dot]
  | cons c cs ih =>
    cases xs with
    | nil => simp [dot]
    | cons x xs =>
      have h1 : 0 ≤ c * x :=
        mul_nonneg (hc c (List.mem_cons_self c cs)) (hx x (List.mem_cons_self x xs))
      have h2 : 0 ≤ dot cs xs :=
        ih xs (fun a ha => hc a (List.mem_cons_of_mem c ha))
          (fun a ha => hx a (List.mem_cons_of_mem x ha))
      simpa only [dot, List.zipWith_cons_cons, List.sum_cons] using
        add_nonneg h1 h2

set_option maxRecDepth 40000 in
lemma totalW12_nonneg : ∀ c ∈ totalW12, 0 ≤ c := by decide

set_option maxRecDepth 40000 in
lemma bandW12_nonneg : ∀ c ∈ bandW12, 0 ≤ c := by decide

set_option maxRecDepth 40000 in
lemma diffW12_nonneg : ∀ c ∈ diffW12, 0 ≤ c := by decide

lemma list_sum_map_div (l : List ℚ) (t : ℚ) :
    (l.map (fun a => a / t)).sum = l.sum / t := by
  induction l with
  | nil => simp
  | cons a l ih => simp [ih, add_div]

lemma relpower_of_total_zero (psd : ℕ → ℚ) (h : totalPower psd = 0) :
    compute_band_relpower psd = [0, 0, 0, 0, 0] := by
  unfold compute_band_relpower
  rw [if_pos h, if_pos h]
  simp [bandAbsPowers, eegBands]

lemma totalPower_psdZero : totalPower psdZero = 0 := by
  have h := totalPower_eq_dot psdZero
  have h2 : dot totalW12 ((List.range 129).map psdZero) = 0 := by
    rw [range129_lit]
    simp [dot, psdZero, totalW12]
  linarith

set_option maxHeartbeats 1000000 in
lemma dot_total_psdDelta2 :
    dot totalW12 ((List.range 129).map psdDelta2) = 8 := by
  rw [range129_lit]
  norm_num [dot, psdDelta2, totalW12]

set_option maxHeartbeats 1000000 in
lemma dot_band_psdDelta2 :
    dot bandW12 ((List.range 129).map psdDelta2) = 16 := by
  rw [range129_lit]
  norm_num [dot, psdDelta2, bandW12]

/-! ### Claim theorems: windowing -/

/-- C1, counterexample: at `window_size = 4`, `num_obs = 4`, `stride = 2`
the claim admits the start index `4` (`4 ≤ num_obs`) and predicts
`floor((4-4)/2) + 1 = 1` window, but the loop `range(4, 4, 2)` produces
no window at all: start indices run strictly below `num_obs`. -/
theorem windower_starts_le_bound_false :
    windowStarts 4 4 2 = [] ∧ (4 - 4) / 2 + 1 ≠ (windowStarts 4 4 2).length := by
  exact ⟨rfl, by decide⟩

/-- C1 (amended): for `window_size`, `stride > 0` with
`stride ≤ window_size`, the windower produces exactly the start indices
`window_size + stride·k` for `k < windowCount`, in order, and an index of
that form qualifies iff it is strictly below `num_obs`; hence the number
of windows is `0` when `num_obs ≤ window_size` and
`floor((num_obs - window_size - 1)/stride) + 1` otherwise (each window
spanning `[start - window_size, start)` as sliced by the loop). -/
theorem windower_starts_characterization (w n s : ℕ)
    (_hw : 0 < w) (hs : 0 < s) (_hsw : s ≤ w) :
    windowStarts w n s
      = (List.range (windowCount w n s)).map (fun k => w + s * k)
    ∧ (∀ k, w + s * k < n ↔ k < windowCount w n s) :=
  ⟨windowStarts_eq_map w n s hs, fun k => (lt_windowCount_iff w n s k hs).symm⟩

/-- Witness for the amended C1 at `window_size = 4`, `num_obs = 10`,
`stride = 2`: three windows start at `4, 6, 8`, and `4 + 2·3 = 10` does
not qualify. -/
theorem windower_starts_characterization_witness :
    (0 < 4 ∧ 0 < 2 ∧ 2 ≤ 4) ∧ windowStarts 4 10 2 = [4, 6, 8]
    ∧ (4 + 2 * 3 < 10 ↔ 3 < windowCount 4 10 2) :=
  ⟨by decide,
   ((windower_starts_characterization 4 10 2 (by decide) (by decide)
      (by decide)).1).trans (by decide),
   (windower_starts_characterization 4 10 2 (by decide) (by decide)
      (by decide)).2 3⟩

/-- C2, counterexample: at `window_size = 4`, `num_obs = 7`, `stride = 2`
the loop `range(4, 7, 2)` produces the two windows starting at `4` and
`6`, not `floor((7-4)/2) = 1` of them. -/
theorem recording_count_floor_false :
    ¬ ((windowStarts 4 7 2).length = (7 - 4) / 2) := by
  decide

/-- C2 (amended): for every recording, the number of windows — and hence
the number of feature vectors, labels and subject entries appended in
lockstep by the loop — equals `0` when `num_obs ≤ window_size` and
`floor((num_obs - window_size - 1)/stride) + 1` otherwise. -/
theorem recording_triple_count {F : Type} (φ : List (List ℚ) → F)
    (X : List (List ℚ)) (y : List ℚ) (sid : String) (w n s : ℕ)
    (hs : 0 < s) :
    (featuresList φ X w n s).length = windowCount w n s
    ∧ (labelsList y w n s).length = windowCount w n s
    ∧ (subjectsList sid w n s).length = windowCount w n s := by
  have h := windowStarts_length w n s hs
  refine ⟨?_, ?_, ?_⟩ <;>
    simp [featuresList, labelsList, subjectsList, h]

/-- Witness for the amended C2 at a 7-sample recording with
`window_size = 4`, `stride = 2`: two windows, two labels, two subject
entries. -/
theorem recording_triple_count_witness :
    0 < 2
    ∧ (featuresList (fun win => win.length) [[1], [2], [3], [4], [5], [6], [7]]
        4 7 2).length = windowCount 4 7 2
    ∧ (labelsList [0, 0, 0, 0, 0, 0, 0] 4 7 2).length = windowCount 4 7 2
    ∧ (subjectsList ("chb01") 4 7 2).length = windowCount 4 7 2 :=
  ⟨by decide,
   recording_triple_count (fun win => win.length)
     [[1], [2], [3], [4], [5], [6], [7]] [0, 0, 0, 0, 0, 0, 0] ("chb01")
     4 7 2 (by decide)⟩

/-- C3, counterexample: with `window_size = 5 > num_obs = 3` (and
`stride = 1`) the loop raises nothing and produces the empty window
sequence, instead of failing with an `InvalidParameter` error. -/
theorem windower_large_window_no_error :
    windowerRun 5 3 1 = .ok [] ∧ 3 < 5 :=
  ⟨rfl, by decide⟩

/-- C3 (amended): the source performs no parameter validation and has no
`InvalidParameter` failure.  For any positive stride the windower
returns its (possibly empty) sequence normally — in particular when
`window_size > num_obs` or `window_size = 0` — and the sequence is empty
exactly when `num_obs ≤ window_size`; the only failure the loop can
produce is Python's `ValueError` from `range` when `stride = 0`. -/
theorem windower_no_invalid_parameter (w n s : ℕ) (hs : 0 < s) :
    windowerRun w n s = .ok (pyRange w n s)
    ∧ windowerRun w n 0 = .error .valueError
    ∧ (pyRange w n s = [] ↔ n ≤ w) := by
  have hs0 : s ≠ 0 := by omega
  refine ⟨by simp [windowerRun, hs0], by simp [windowerRun], ?_⟩
  have hlen : (pyRange w n s).length = windowCount w n s :=
    windowStarts_length w n s hs
  rw [← List.length_eq_zero, hlen]
  unfold windowCount
  by_cases h : n ≤ w <;> simp [h]

/-- Witness for the amended C3 at the notebook's own parameters
(`window_size = 1024`, `stride = 512`) on a 512-sample recording: the
run returns the empty sequence without error. -/
theorem windower_no_invalid_parameter_witness :
    0 < 512 ∧ windowerRun 1024 512 512 = .ok (pyRange 1024 512 512)
    ∧ windowerRun 1024 512 0 = .error .valueError
    ∧ (pyRange 1024 512 512 = [] ↔ 512 ≤ 1024) :=
  ⟨by decide, windower_no_invalid_parameter 1024 512 512 (by decide)⟩

/-- C6: for windows over a binary indicator channel (every sample value
`0` or `1`), the aggregated label is the OR of the per-sample seizure
flags: `np.any` returns true iff some flagged sample (value `1`) lies in
the window slice.  The aggregation is a total Lean function (no failure
modes). -/
theorem window_label_or_of_flags (y : List ℚ) (w ix : ℕ)
    (hbin : y.all (fun v => v == 0 || v == 1) = true) :
    (windowLabel y w ix = true ↔ (1 : ℚ) ∈ pySlice y (ix - w) ix) := by
  rw [windowLabel, List.any_eq_true]
  constructor
  · rintro ⟨v, hv, hd⟩
    have hne : v ≠ 0 := of_decide_eq_true hd
    have hv2 : v = 0 ∨ v = 1 := by
      have hb := List.all_eq_true.mp hbin v (pySlice_subset y _ _ v hv)
      simpa using hb
    rcases hv2 with h0 | h1
    · exact absurd h0 hne
    · exact h1 ▸ hv
  · intro h1
    exact ⟨1, h1, by norm_num⟩

/-- Witness for C6 on the binary sequence `[0, 1, 0]` with a window of
size 2 ending at index 2: the window `[0, 1]` contains a flag, so the
label is true. -/
theorem window_label_or_of_flags_witness :
    ([0, 1, 0] : List ℚ).all (fun v => v == 0 || v == 1) = true
    ∧ (windowLabel [0, 1, 0] 2 2 = true ↔ (1 : ℚ) ∈ pySlice [0, 1, 0] 0 2) :=
  ⟨by decide, window_label_or_of_flags [0, 1, 0] 2 2 (by decide)⟩

/-- C7, counterexample: with a dataset whose subjects are `chb02` and
`chb03`, splitting on the absent id `chb01` does not fail with an
`UnknownSubject` error: it silently returns the whole dataset as the
train partition and an empty test partition. -/
theorem split_unknown_subject_no_error :
    ([("chb02", [0]), ("chb03", [1])] : List (String × List ℚ)).all
        (fun r => !(r.1 == "chb01")) = true
    ∧ splitRun [("chb02", [0]), ("chb03", [1])] ("chb01")
        = .ok ([("chb02", [0]), ("chb03", [1])], []) :=
  ⟨by decide, rfl⟩

/-- C7 (amended): when the designated test subject id matches no row, the
splitter does not fail: it returns the whole dataset as the train
partition and an empty test partition. -/
theorem split_unknown_subject_silent (rows : List (String × List ℚ))
    (tid : String) (hno : rows.all (fun r => !(r.1 == tid)) = true) :
    splitRun rows tid = .ok (rows, []) := by
  have hall := List.all_eq_true.mp hno
  have h1 : rows.filter (fun r => !(r.1 == tid)) = rows :=
    List.filter_eq_self.mpr hall
  have h2 : rows.filter (fun r => r.1 == tid) = [] := by
    rw [List.filter_eq_nil_iff]
    intro r hr
    have hb := hall r hr
    simp at hb ⊢
    exact hb
  simp [splitRun, splitDataset, h1, h2]

/-- Witness for the amended C7: a one-subject dataset split on a
different id. -/
theorem split_unknown_subject_silent_witness :
    ([("chb05", [2])] : List (String × List ℚ)).all
        (fun r => !(r.1 == "chb01")) = true
    ∧ splitRun [("chb05", [2])] ("chb01") = .ok ([("chb05", [2])], []) :=
  ⟨by decide, split_unknown_subject_silent [("chb05", [2])] ("chb01") (by decide)⟩

/-- C8: the standardizer statistics are fitted on the training features
only; both partitions are transformed with those same fitted statistics
(`fitStats sq Xtr`), and the scaler state after the pipeline — hence the
statistics used on the test side — does not depend on the test features
in any way (the test set is never used to refit). -/
theorem standardizer_fit_on_train_only (sq : ℚ → ℚ)
    (Xtr Xte Xte2 : List (List ℚ)) :
    standardizePipeline sq Xtr Xte
      = ((⟨some (fitStats sq Xtr)⟩, Xtr.map (transformRow (fitStats sq Xtr))),
         some (Xte.map (transformRow (fitStats sq Xtr))))
    ∧ (standardizePipeline sq Xtr Xte).1.1
        = (standardizePipeline sq Xtr Xte2).1.1 :=
  ⟨rfl, rfl⟩

/-- C9: every start index produced by the loop satisfies
`window_size ≤ ix < num_obs`, so the slice `X[ix - window_size : ix]`
lies fully inside the recording and has exactly `window_size` rows: no
truncated window reaches feature extraction or label aggregation. -/
theorem window_full_length (X : List (List ℚ)) (w s ix : ℕ) (hs : 0 < s)
    (hmem : ix ∈ windowStarts w X.length s) :
    w ≤ ix ∧ ix < X.length ∧ (pySlice X (ix - w) ix).length = w := by
  obtain ⟨k, rfl, hlt⟩ := (mem_windowStarts w X.length s _ hs).mp hmem
  refine ⟨Nat.le_add_right w _, hlt, ?_⟩
  rw [pySlice_length X _ _ (le_of_lt hlt) (by omega)]
  omega

/-- Witness for C9 on a 3-row recording with `window_size = 2`,
`stride = 1`: the window ending at index 2 has exactly 2 rows. -/
theorem window_full_length_witness :
    0 < 1 ∧ 2 ∈ windowStarts 2 ([[1], [2], [3]] : List (List ℚ)).length 1
    ∧ (2 ≤ 2 ∧ 2 < ([[1], [2], [3]] : List (List ℚ)).length
       ∧ (pySlice ([[1], [2], [3]] : List (List ℚ)) 0 2).length = 2) :=
  ⟨by decide, by decide,
   window_full_length [[1], [2], [3]] 2 1 2 (by decide) (by decide)⟩

/-- C10: the label aggregation treats any nonzero indicator value as a
seizure flag — `np.any` yields true exactly when some sample of the
window slice is nonzero — and the produced label is a `Bool`. -/
theorem window_label_nonzero_semantics (y : List ℚ) (w ix : ℕ) :
    windowLabel y w ix = true ↔ ∃ v ∈ pySlice y (ix - w) ix, v ≠ 0 := by
  rw [windowLabel, List.any_eq_true]
  simp only [decide_eq_true_eq]

/-! ### Claim theorems: spectral features -/

/-- C4: for every channel whose total power (the Simpson integral of the
PSD over all returned frequencies) is exactly zero, `compute_band_relpower`
returns relative power 0 for all five bands of that channel: the guard
zeroes the band powers and replaces the zero denominator by `-1`, so the
division is by `-1` and never by zero (and, in this exact-arithmetic
embedding, never produces an undefined value). -/
theorem band_relpower_zero_total_power (psd : ℕ → ℚ)
    (h : totalPower psd = 0) :
    compute_band_relpower psd = [0, 0, 0, 0, 0] :=
  relpower_of_total_zero psd h

/-- Witness for C4 at the identically-zero PSD (the PSD scipy's Welch
estimator returns for a constant signal, which it detrends to zero). -/
theorem band_relpower_zero_total_power_witness :
    totalPower psdZero = 0
    ∧ compute_band_relpower psdZero = [0, 0, 0, 0, 0] :=
  ⟨totalPower_psdZero, band_relpower_zero_total_power psdZero totalPower_psdZero⟩

set_option maxRecDepth 40000 in
/-- C5, counterexample: for the nonnegative PSD concentrated on the 2 Hz
sample, the 0.5-4 Hz band's Simpson weight at 2 Hz (`4/3`) exceeds the
total integral's weight there (`2/3`), so the band relative powers sum
to `2 > 1`: the sum of the five band relative powers is not bounded
by 1. -/
theorem band_relpower_sum_gt_one :
    (List.range 129).all (fun i => decide (0 ≤ psdDelta2 i)) = true
    ∧ (compute_band_relpower psdDelta2).sum = 2
    ∧ ¬ ((compute_band_relpower psdDelta2).sum ≤ 1) := by
  have hT := totalPower_eq_dot psdDelta2
  have hB := bandAbs_eq_dot psdDelta2
  rw [dot_total_psdDelta2] at hT
  rw [dot_band_psdDelta2] at hB
  have hTv : totalPower psdDelta2 = 2/3 := by linarith
  have hBv : (bandAbsPowers psdDelta2).sum = 4/3 := by linarith
  have h0 : ¬ (totalPower psdDelta2 = 0) := by
    rw [hTv]
    norm_num
  have hrel : compute_band_relpower psdDelta2
      = (bandAbsPowers psdDelta2).map (fun a => a / totalPower psdDelta2) := by
    unfold compute_band_relpower
    rw [if_neg h0, if_neg h0]
  have hsum : (compute_band_relpower psdDelta2).sum = 2 := by
    rw [hrel, list_sum_map_div, hBv, hTv]
    norm_num
  refine ⟨by decide, hsum, ?_⟩
  rw [hsum]
  norm_num

/-- C5 (amended): for every nonnegative PSD, the sum of the five band
relative powers returned by `compute_band_relpower` lies in `[0, 2]`
(the per-frequency Simpson weights of the disjoint bands are at most
twice the total integral's weights, and the zero-total-power guard
returns all zeros); the upper bound 1 claimed for the sum does not hold
in general. -/
theorem band_relpower_sum_bounds (psd : ℕ → ℚ)
    (h : (List.range 129).all (fun i => decide (0 ≤ psd i)) = true) :
    0 ≤ (compute_band_relpower psd).sum
    ∧ (compute_band_relpower psd).sum ≤ 2 := by
  have hx : ∀ x ∈ (List.range 129).map psd, 0 ≤ x := by
    intro x hxm
    obtain ⟨i, hi, rfl⟩ := List.mem_map.mp hxm
    exact of_decide_eq_true (List.all_eq_true.mp h i hi)
  have hT := totalPower_eq_dot psd
  have hB := bandAbs_eq_dot psd
  have hS := dot_split psd
  have hTnn : 0 ≤ dot totalW12 ((List.range 129).map psd) :=
    dot_nonneg _ _ totalW12_nonneg hx
  have hBnn : 0 ≤ dot bandW12 ((List.range 129).map psd) :=
    dot_nonneg _ _ bandW12_nonneg hx
  have hDnn : 0 ≤ dot diffW12 ((List.range 129).map psd) :=
    dot_nonneg _ _ diffW12_nonneg hx
  have hTnn2 : 0 ≤ totalPower psd := by linarith
  have hBnn2 : 0 ≤ (bandAbsPowers psd).sum := by linarith
  have hBle : (bandAbsPowers psd).sum ≤ 2 * totalPower psd := by linarith
  by_cases h0 : totalPower psd = 0
  · rw [relpower_of_total_zero psd h0]
    norm_num
  · have htpos : 0 < totalPower psd := lt_of_le_of_ne hTnn2 (Ne.symm h0)
    have hrel : compute_band_relpower psd
        = (bandAbsPowers psd).map (fun a => a / totalPower psd) := by
      unfold compute_band_relpower
      rw [if_neg h0, if_neg h0]
    rw [hrel, list_sum_map_div]
    refine ⟨div_nonneg hBnn2 (le_of_lt htpos), ?_⟩
    rw [div_le_iff₀ htpos]
    linarith

set_option maxRecDepth 40000 in
/-- Witness for the amended C5 at the identically-one PSD. -/
theorem band_relpower_sum_bounds_witness :
    (List.range 129).all (fun i => decide (0 ≤ psdOne i)) = true
    ∧ 0 ≤ (compute_band_relpower psdOne).sum
    ∧ (compute_band_relpower psdOne).sum ≤ 2 :=
  ⟨by decide, (band_relpower_sum_bounds psdOne (by decide)).1,
   (band_relpower_sum_bounds psdOne (by decide)).2⟩

end EEGA
